import Mathlib

/-!
# Verification of the crypto-trading-platform order/settlement core

Shallow embedding of the trading router (`backend/routers/trading.py`) and the
bot router (`backend/routers/bots.py`): the relational rows become Lean
structures, the database session becomes an explicit `DB` value threaded
through each handler, and monetary floats are modelled as exact rationals.
Each handler is translated branch for branch from the Python source.
-/

set_option autoImplicit false

namespace Sweep

/-- A row of the `markets` table (`models.py`, class `Market`). -/
structure Market where
  symbol : String
  base_asset : String
  quote_asset : String
  price : Rat
  volume_24h : Rat
  change_24h : Rat
  deriving DecidableEq, Repr

/-- A row of the `portfolios` table (`models.py`, class `Portfolio`). -/
structure PortfolioEntry where
  user_id : Nat
  asset : String
  balance : Rat
  deriving DecidableEq, Repr

/-- A row of the `trades` table (`models.py`, class `Trade`).  `executed`
models whether `executed_at` has been set (the wall-clock value itself is
irrelevant to every claim). -/
structure Trade where
  id : Nat
  symbol : String
  side : String
  order_type : String
  amount : Rat
  price : Rat
  status : String
  executed : Bool
  user_id : Nat
  bot_id : Option Nat
  deriving DecidableEq, Repr

/-- The bot `config` column is a JSON string read with
`json.loads(bot.config)` followed by `.get("symbol"/"side"/"amount", default)`
(`bots.py`, `run_bot_task`).  We embed it already parsed: `malformed` is a
string on which `json.loads` (or the `float` conversion of the amount)
raises, `parsed` carries the three optional keys the task reads. -/
inductive BotConfig where
  | malformed
  | parsed (symbol : Option String) (side : Option String) (amount : Option Rat)
  deriving DecidableEq, Repr

/-- A row of the `bots` table (`models.py`, class `Bot`). -/
structure Bot where
  id : Nat
  name : String
  strategy : String
  config : BotConfig
  status : String
  owner_id : Nat
  deriving DecidableEq, Repr

/-- The database state visible to the routers.  `next_trade_id` models the
autoincrementing primary key of `trades`. -/
structure DB where
  markets : List Market
  portfolios : List PortfolioEntry
  trades : List Trade
  bots : List Bot
  next_trade_id : Nat
  deriving DecidableEq, Repr

/-- The request body of `POST /orders` (`trading.py`, class `TradeCreate`). -/
structure TradeCreate where
  symbol : String
  side : String
  order_type : String
  amount : Rat
  price : Option Rat
  deriving DecidableEq, Repr

/-- Python's `s.split(c)` for a one-character separator, by structural
recursion on the character list: every occurrence of the separator splits,
and empty pieces are kept (`"".split("/") == [""]`, `"A/".split("/") == ["A", ""]`). -/
def splitOnChar (c : Char) : List Char → List (List Char)
  | [] => [[]]
  | a :: rest =>
    let r := splitOnChar c rest
    if a = c then [] :: r
    else
      match r with
      | [] => [[a]]
      | g :: gs => (a :: g) :: gs

/-- `trade.symbol.split("/")` (`trading.py` line 100). -/
def symbolSplit (s : String) : List String :=
  (splitOnChar '/' s.data).map (fun l => String.mk l)

/-- `db.query(Market).filter(Market.symbol == symbol).first()`. -/
def findMarket (db : DB) (symbol : String) : Option Market :=
  (db.markets.filter (fun m => m.symbol = symbol)).head?

/-- `db.query(Portfolio).filter(Portfolio.user_id == uid, Portfolio.asset == asset).first()`,
returned as the index of the first matching row so that the two ORM object
references of `create_order` (which may alias when base and quote coincide)
are represented faithfully. -/
def findPortfolioIdx (l : List PortfolioEntry) (uid : Nat) (asset : String) : Option Nat :=
  l.findIdx? (fun p => p.user_id = uid ∧ p.asset = asset)

/-- Add `d` to the balance of the `i`-th portfolio row (an in-place ORM
attribute update such as `base_portfolio.balance += trade.amount`;
a subtraction is the addition of a negated delta). -/
def addToBalance : List PortfolioEntry → Nat → Rat → List PortfolioEntry
  | [], _, _ => []
  | p :: rest, 0, d => { p with balance := p.balance + d } :: rest
  | p :: rest, i + 1, d => p :: addToBalance rest i d

/-- The inline settlement block of `create_order` (`trading.py` lines
100-130): query both portfolio rows first, lazily create the missing ones
with balance `0`, then apply the buy/sell deltas.  Both queries run before
either `db.add`, exactly as in the source, so when `base = quote` and no row
exists two rows are created, while an existing row is aliased by both
references. -/
def settlePortfolio (l : List PortfolioEntry) (uid : Nat) (base quote : String)
    (side : String) (amount price : Rat) : List PortfolioEntry :=
  let baseIdxOpt := findPortfolioIdx l uid base
  let quoteIdxOpt := findPortfolioIdx l uid quote
  let step1 : List PortfolioEntry × Nat :=
    match baseIdxOpt with
    | some i => (l, i)
    | none => (l ++ [⟨uid, base, 0⟩], l.length)
  let step2 : List PortfolioEntry × Nat :=
    match quoteIdxOpt with
    | some i => (step1.1, i)
    | none => (step1.1 ++ [⟨uid, quote, 0⟩], step1.1.length)
  if side = "buy" then
    addToBalance (addToBalance step2.1 step1.2 amount) step2.2 (-(amount * price))
  else
    addToBalance (addToBalance step2.1 step1.2 (-amount)) step2.2 (amount * price)

/-- Outcome of `POST /orders`: a 400 `HTTPException` with its `detail`
string, a 500 from an uncaught exception (the `ValueError` of the symbol
unpacking), or the created trade. -/
inductive OrderResult where
  | badRequest (detail : String)
  | serverError
  | created (t : Trade)
  deriving DecidableEq, Repr

/-- `create_order` (`trading.py` lines 47-132), returning the response
together with the committed database state.  On the `serverError` branch the
trade row was committed with status `"open"` before the split failed; the
uncommitted in-memory flip to `"filled"` is discarded when the session of
`get_db` closes without a further commit. -/
def create_order (db : DB) (uid : Nat) (trade : TradeCreate) : OrderResult × DB :=
  if trade.side ≠ "buy" ∧ trade.side ≠ "sell" then
    (.badRequest "Side must be 'buy' or 'sell'", db)
  else if trade.order_type ≠ "market" ∧ trade.order_type ≠ "limit" then
    (.badRequest "Order type must be 'market' or 'limit'", db)
  else if trade.order_type = "limit" ∧ (trade.price = none ∨ trade.price = some 0) then
    (.badRequest "Price is required for limit orders", db)
  else
    match findMarket db trade.symbol with
    | none => (.badRequest ("Market " ++ trade.symbol ++ " not found"), db)
    | some market =>
      let price : Rat := if trade.order_type = "limit" then trade.price.getD 0 else market.price
      let new_trade : Trade :=
        { id := db.next_trade_id, symbol := trade.symbol, side := trade.side,
          order_type := trade.order_type, amount := trade.amount, price := price,
          status := "open", executed := false, user_id := uid, bot_id := none }
      let db1 : DB :=
        { db with trades := db.trades ++ [new_trade],
                  next_trade_id := db.next_trade_id + 1 }
      if trade.order_type = "market" then
        match symbolSplit trade.symbol with
        | [base_asset, quote_asset] =>
          let filled : Trade := { new_trade with status := "filled", executed := true }
          let db2 : DB :=
            { db1 with
              trades := db.trades ++ [filled],
              portfolios := settlePortfolio db1.portfolios uid base_asset quote_asset
                              trade.side trade.amount price }
          (.created filled, db2)
        | _ => (.serverError, db1)
      else
        (.created new_trade, db1)

/-- One element of the `GET /portfolio` response (`trading.py`,
`get_portfolio`): the dict `{"asset": ..., "balance": ..., "value_usd": ...}`. -/
structure PortfolioItem where
  asset : String
  balance : Rat
  value_usd : Option Rat
  deriving DecidableEq, Repr

/-- `get_portfolio` (`trading.py` lines 167-190): iterate over the user's
portfolio rows, skip zero balances, and attach `balance * price` of the
`"{asset}/USD"` market when that market row exists. -/
def get_portfolio (db : DB) (uid : Nat) : List PortfolioItem :=
  let portfolio := db.portfolios.filter (fun p => p.user_id = uid)
  portfolio.foldl
    (fun result item =>
      if item.balance = 0 then result
      else
        result ++ [{ asset := item.asset, balance := item.balance,
                     value_usd := (findMarket db (item.asset ++ "/USD")).map
                                    (fun m => item.balance * m.price) }])
    []

/-- `db.query(Bot).filter(Bot.id == bot_id).first()` (`run_bot_task`). -/
def findBot (db : DB) (bot_id : Nat) : Option Bot :=
  (db.bots.filter (fun b => b.id = bot_id)).head?

/-- `db.query(Bot).filter(Bot.id == bot_id, Bot.owner_id == uid).first()`
(the ownership-scoped lookup of the bot endpoints). -/
def findBotOwned (db : DB) (bot_id uid : Nat) : Option Bot :=
  (db.bots.filter (fun b => b.id = bot_id && b.owner_id = uid)).head?

/-- `bot.status = s; db.commit()`: update the status column of the bot row. -/
def setBotStatus (db : DB) (bot_id : Nat) (s : String) : DB :=
  { db with bots := db.bots.map (fun b => if b.id = bot_id then { b with status := s } else b) }

/-- `run_bot_task` (`bots.py` lines 40-77): re-read the bot, flip its status
to `"running"`, parse the config with defaults `"BTC/USD"` / `"buy"` /
`0.01`, look up the market, and if it exists insert one already-filled
market trade for the bot's owner; a config parse error sets status
`"error"`.  No portfolio row is read or written on any path. -/
def run_bot_task (db : DB) (bot_id : Nat) : DB :=
  match findBot db bot_id with
  | none => db
  | some bot =>
    let db1 := setBotStatus db bot_id "running"
    match bot.config with
    | .malformed => setBotStatus db1 bot_id "error"
    | .parsed symOpt sideOpt amtOpt =>
      let symbol := symOpt.getD "BTC/USD"
      let side := sideOpt.getD "buy"
      let amount := amtOpt.getD (1 / 100 : Rat)
      match findMarket db1 symbol with
      | none => db1
      | some market =>
        let trade : Trade :=
          { id := db1.next_trade_id, symbol := symbol, side := side,
            order_type := "market", amount := amount, price := market.price,
            status := "filled", executed := true, user_id := bot.owner_id,
            bot_id := some bot_id }
        { db1 with trades := db1.trades ++ [trade],
                   next_trade_id := db1.next_trade_id + 1 }

/-- The response body of the bot start/stop actions (`bots.py`,
class `BotActionResponse`). -/
structure BotActionResponse where
  success : Bool
  message : String
  status : String
  deriving DecidableEq, Repr

/-- `start_bot` (`bots.py` lines 144-165): 404 when the user owns no such
bot; a `success = false` no-op when the bot is already `"running"`;
otherwise schedule `run_bot_task` once via `background_tasks.add_task` and
answer `success = true` immediately.  The returned `DB` is the state as the
handler leaves it (it performs no write itself) and the returned list holds
the bot ids of the scheduled background invocations. -/
def start_bot (db : DB) (uid bot_id : Nat) :
    Except String (BotActionResponse × DB × List Nat) :=
  match findBotOwned db bot_id uid with
  | none => .error "Bot not found"
  | some bot =>
    if bot.status = "running" then
      .ok ({ success := false, message := "Bot is already running", status := bot.status }, db, [])
    else
      .ok ({ success := true, message := "Bot started successfully", status := "starting" }, db, [bot_id])

/-- The signed total balance a user holds in an asset: the sum of the
`balance` column over the user's portfolio rows for that asset (a single
row in every state the handlers themselves produce). -/
def balanceOf (l : List PortfolioEntry) (uid : Nat) (asset : String) : Rat :=
  ((l.filter (fun p => p.user_id = uid ∧ p.asset = asset)).map (fun p => p.balance)).sum

/-- `msg` mentions `sym` when `sym` occurs verbatim inside `msg`. -/
def mentions (msg sym : String) : Prop :=
  ∃ before after, msg = before ++ sym ++ after

/-! ## Basic lemmas about balances and portfolio updates -/

theorem balanceOf_nil (uid : Nat) (a : String) : balanceOf [] uid a = 0 := rfl

theorem balanceOf_cons (p : PortfolioEntry) (l : List PortfolioEntry) (uid : Nat) (a : String) :
    balanceOf (p :: l) uid a =
      (if p.user_id = uid ∧ p.asset = a then p.balance else 0) + balanceOf l uid a := by
  by_cases h : p.user_id = uid ∧ p.asset = a <;>
    simp [balanceOf, List.filter_cons, h]

theorem balanceOf_append (l1 l2 : List PortfolioEntry) (uid : Nat) (a : String) :
    balanceOf (l1 ++ l2) uid a = balanceOf l1 uid a + balanceOf l2 uid a := by
  simp [balanceOf, List.filter_append]

theorem addToBalance_nil (i : Nat) (d : Rat) : addToBalance [] i d = [] := rfl

theorem balanceOf_addToBalance (l : List PortfolioEntry) (i : Nat) (d : Rat)
    (uid : Nat) (a : String) :
    balanceOf (addToBalance l i d) uid a =
      balanceOf l uid a +
        (match l[i]? with
         | some p => if p.user_id = uid ∧ p.asset = a then d else 0
         | none => 0) := by
  induction l generalizing i with
  | nil => simp [balanceOf_nil, addToBalance_nil]
  | cons p rest ih =>
    cases i with
    | zero =>
      by_cases h : p.user_id = uid ∧ p.asset = a <;>
        (simp [addToBalance, balanceOf_cons, h]; try ring)
    | succ i =>
      by_cases h : p.user_id = uid ∧ p.asset = a <;>
        (simp [addToBalance, balanceOf_cons, h, ih]; try ring)

theorem addToBalance_getElem? (l : List PortfolioEntry) (i j : Nat) (d : Rat) :
    (addToBalance l i d)[j]? =
      if i = j then (l[j]?).map (fun p => { p with balance := p.balance + d })
      else l[j]? := by
  induction l generalizing i j with
  | nil => simp [addToBalance_nil]
  | cons p rest ih =>
    cases i with
    | zero => cases j <;> simp [addToBalance]
    | succ i =>
      cases j with
      | zero => simp [addToBalance]
      | succ j => simpa [addToBalance, Nat.succ_inj] using ih i j

theorem addToBalance_append_left (l l2 : List PortfolioEntry) (k : Nat) (d : Rat) :
    addToBalance (l ++ l2) (l.length + k) d = l ++ addToBalance l2 k d := by
  induction l with
  | nil => simp
  | cons p rest ih => simpa [addToBalance, Nat.succ_add] using ih

theorem findPortfolioIdx_none_iff (l : List PortfolioEntry) (uid : Nat) (a : String) :
    findPortfolioIdx l uid a = none ↔ ∀ p ∈ l, ¬(p.user_id = uid ∧ p.asset = a) := by
  simp [findPortfolioIdx, List.findIdx?_eq_none_iff]

theorem balanceOf_of_findPortfolioIdx_none (l : List PortfolioEntry) (uid : Nat) (a : String)
    (h : findPortfolioIdx l uid a = none) : balanceOf l uid a = 0 := by
  rw [findPortfolioIdx_none_iff] at h
  induction l with
  | nil => rfl
  | cons p rest ih =>
    rw [balanceOf_cons]
    have hp := h p (by simp)
    have hrest := ih (fun x hx => h x (by simp [hx]))
    simp [hp, hrest]

theorem findPortfolioIdx_some (l : List PortfolioEntry) (uid : Nat) (a : String) (i : Nat)
    (h : findPortfolioIdx l uid a = some i) :
    ∃ p, l[i]? = some p ∧ p.user_id = uid ∧ p.asset = a ∧ i < l.length := by
  rw [findPortfolioIdx, List.findIdx?_eq_some_iff_getElem] at h
  obtain ⟨hlen, hp, -⟩ := h
  have hp' : l[i].user_id = uid ∧ l[i].asset = a := by simpa using hp
  exact ⟨l[i], by simp [List.getElem?_eq_getElem hlen], hp'.1, hp'.2, hlen⟩

/-- The settlement block with the buy/sell branch already resolved into one
signed delta per leg; `settlePortfolio_eq_settleDeltas` relates it to the
source translation. -/
def settleDeltas (l : List PortfolioEntry) (uid : Nat) (base quote : String)
    (dbase dquote : Rat) : List PortfolioEntry :=
  let baseIdxOpt := findPortfolioIdx l uid base
  let quoteIdxOpt := findPortfolioIdx l uid quote
  let step1 : List PortfolioEntry × Nat :=
    match baseIdxOpt with
    | some i => (l, i)
    | none => (l ++ [⟨uid, base, 0⟩], l.length)
  let step2 : List PortfolioEntry × Nat :=
    match quoteIdxOpt with
    | some i => (step1.1, i)
    | none => (step1.1 ++ [⟨uid, quote, 0⟩], step1.1.length)
  addToBalance (addToBalance step2.1 step1.2 dbase) step2.2 dquote

theorem settlePortfolio_eq_settleDeltas (l : List PortfolioEntry) (uid : Nat)
    (base quote side : String) (amount price : Rat) :
    settlePortfolio l uid base quote side amount price =
      settleDeltas l uid base quote
        (if side = "buy" then amount else -amount)
        (if side = "buy" then -(amount * price) else amount * price) := by
  by_cases h : side = "buy" <;> simp [settlePortfolio, settleDeltas, h]

theorem settleDeltas_of_no_user_rows (l : List PortfolioEntry) (uid : Nat)
    (base quote : String) (dbase dquote : Rat)
    (h : ∀ p ∈ l, p.user_id ≠ uid) :
    settleDeltas l uid base quote dbase dquote =
      l ++ [⟨uid, base, dbase⟩, ⟨uid, quote, dquote⟩] := by
  have hbnone : findPortfolioIdx l uid base = none := by
    rw [findPortfolioIdx_none_iff]; exact fun p hp hc => h p hp hc.1
  have hqnone : findPortfolioIdx l uid quote = none := by
    rw [findPortfolioIdx_none_iff]; exact fun p hp hc => h p hp hc.1
  unfold settleDeltas
  rw [hbnone, hqnone]
  simp only
  have e1 : l ++ [(⟨uid, base, 0⟩ : PortfolioEntry)] ++ [(⟨uid, quote, 0⟩ : PortfolioEntry)]
      = l ++ [⟨uid, base, 0⟩, ⟨uid, quote, 0⟩] := by simp
  have e2 : (l ++ [(⟨uid, base, 0⟩ : PortfolioEntry)]).length = l.length + 1 := by simp
  rw [e1, e2]
  have s1 : addToBalance (l ++ [(⟨uid, base, 0⟩ : PortfolioEntry), ⟨uid, quote, 0⟩])
      l.length dbase = l ++ [⟨uid, base, dbase⟩, ⟨uid, quote, 0⟩] := by
    have := addToBalance_append_left l [⟨uid, base, 0⟩, ⟨uid, quote, 0⟩] 0 dbase
    simpa [addToBalance] using this
  rw [s1]
  have s2 : addToBalance (l ++ [(⟨uid, base, dbase⟩ : PortfolioEntry), ⟨uid, quote, 0⟩])
      (l.length + 1) dquote = l ++ [⟨uid, base, dbase⟩, ⟨uid, quote, dquote⟩] := by
    have := addToBalance_append_left l [⟨uid, base, dbase⟩, ⟨uid, quote, 0⟩] 1 dquote
    simpa [addToBalance] using this
  rw [s2]

theorem balanceOf_settleDeltas_base (l : List PortfolioEntry) (uid : Nat)
    (base quote : String) (dbase dquote : Rat) (hbq : base ≠ quote) :
    balanceOf (settleDeltas l uid base quote dbase dquote) uid base =
      balanceOf l uid base + dbase := by
  unfold settleDeltas
  rcases hb : findPortfolioIdx l uid base with _ | i <;>
    rcases hq : findPortfolioIdx l uid quote with _ | j <;> simp only
  · -- both rows missing: fresh rows at positions l.length and l.length + 1
    rw [balanceOf_addToBalance, balanceOf_addToBalance]
    have h1 : (l ++ [(⟨uid, base, 0⟩ : PortfolioEntry)] ++ [(⟨uid, quote, 0⟩ : PortfolioEntry)])[l.length]? =
        some ⟨uid, base, 0⟩ := by
      rw [List.getElem?_append_left (by simp), List.getElem?_concat_length]
    have h2 : (addToBalance (l ++ [(⟨uid, base, 0⟩ : PortfolioEntry)] ++ [(⟨uid, quote, 0⟩ : PortfolioEntry)])
        l.length dbase)[(l ++ [(⟨uid, base, 0⟩ : PortfolioEntry)]).length]? = some ⟨uid, quote, 0⟩ := by
      rw [addToBalance_getElem?, if_neg (by simp), List.getElem?_concat_length]
    rw [h1, h2, balanceOf_append, balanceOf_append]
    simp [balanceOf_cons, balanceOf_nil, hbq, Ne.symm hbq]
  · -- base row missing, quote row at j < l.length
    obtain ⟨pq, hpq, hpqu, hpqa, hjlen⟩ := findPortfolioIdx_some l uid quote j hq
    rw [balanceOf_addToBalance, balanceOf_addToBalance]
    have h1 : (l ++ [(⟨uid, base, 0⟩ : PortfolioEntry)])[l.length]? = some ⟨uid, base, 0⟩ :=
      List.getElem?_concat_length _ _
    have h2 : (addToBalance (l ++ [(⟨uid, base, 0⟩ : PortfolioEntry)]) l.length dbase)[j]? =
        some pq := by
      rw [addToBalance_getElem?, if_neg (by omega), List.getElem?_append_left hjlen, hpq]
    rw [h1, h2, balanceOf_append]
    have hnq : ¬(pq.user_id = uid ∧ pq.asset = base) := by
      rintro ⟨-, hc⟩; exact hbq (hpqa ▸ hc).symm
    simp [balanceOf_cons, balanceOf_nil, hnq, hpqu, hpqa, Ne.symm hbq]
  · -- base row at i < l.length, quote row missing
    obtain ⟨pb, hpb, hpbu, hpba, hilen⟩ := findPortfolioIdx_some l uid base i hb
    rw [balanceOf_addToBalance, balanceOf_addToBalance]
    have h1 : (l ++ [(⟨uid, quote, 0⟩ : PortfolioEntry)])[i]? = some pb := by
      rw [List.getElem?_append_left hilen, hpb]
    have h2 : (addToBalance (l ++ [(⟨uid, quote, 0⟩ : PortfolioEntry)]) i dbase)[l.length]? =
        some ⟨uid, quote, 0⟩ := by
      rw [addToBalance_getElem?, if_neg (by omega), List.getElem?_concat_length]
    rw [h1, h2, balanceOf_append]
    simp [balanceOf_cons, balanceOf_nil, hpbu, hpba, Ne.symm hbq]
  · -- both rows present
    obtain ⟨pb, hpb, hpbu, hpba, hilen⟩ := findPortfolioIdx_some l uid base i hb
    obtain ⟨pq, hpq, hpqu, hpqa, hjlen⟩ := findPortfolioIdx_some l uid quote j hq
    have hij : i ≠ j := by
      rintro rfl
      rw [hpb] at hpq
      have : pb = pq := by injection hpq
      exact hbq (by rw [← hpba, this, hpqa])
    rw [balanceOf_addToBalance, balanceOf_addToBalance]
    have h2 : (addToBalance l i dbase)[j]? = some pq := by
      rw [addToBalance_getElem?, if_neg hij, hpq]
    have : ¬(pq.user_id = uid ∧ pq.asset = base) := by
      rintro ⟨-, hc⟩; exact hbq (hpqa ▸ hc).symm
    rw [hpb, h2]
    simp [hpbu, hpba, this]

theorem balanceOf_settleDeltas_quote (l : List PortfolioEntry) (uid : Nat)
    (base quote : String) (dbase dquote : Rat) (hbq : base ≠ quote) :
    balanceOf (settleDeltas l uid base quote dbase dquote) uid quote =
      balanceOf l uid quote + dquote := by
  unfold settleDeltas
  rcases hb : findPortfolioIdx l uid base with _ | i <;>
    rcases hq : findPortfolioIdx l uid quote with _ | j <;> simp only
  · rw [balanceOf_addToBalance, balanceOf_addToBalance]
    have h1 : (l ++ [(⟨uid, base, 0⟩ : PortfolioEntry)] ++ [(⟨uid, quote, 0⟩ : PortfolioEntry)])[l.length]? =
        some ⟨uid, base, 0⟩ := by
      rw [List.getElem?_append_left (by simp), List.getElem?_concat_length]
    have h2 : (addToBalance (l ++ [(⟨uid, base, 0⟩ : PortfolioEntry)] ++ [(⟨uid, quote, 0⟩ : PortfolioEntry)])
        l.length dbase)[(l ++ [(⟨uid, base, 0⟩ : PortfolioEntry)]).length]? = some ⟨uid, quote, 0⟩ := by
      rw [addToBalance_getElem?, if_neg (by simp), List.getElem?_concat_length]
    rw [h1, h2, balanceOf_append, balanceOf_append]
    simp [balanceOf_cons, balanceOf_nil, hbq, Ne.symm hbq]
  · -- base row missing, quote row at j < l.length
    obtain ⟨pq, hpq, hpqu, hpqa, hjlen⟩ := findPortfolioIdx_some l uid quote j hq
    rw [balanceOf_addToBalance, balanceOf_addToBalance]
    have h1 : (l ++ [(⟨uid, base, 0⟩ : PortfolioEntry)])[l.length]? = some ⟨uid, base, 0⟩ :=
      List.getElem?_concat_length _ _
    have h2 : (addToBalance (l ++ [(⟨uid, base, 0⟩ : PortfolioEntry)]) l.length dbase)[j]? =
        some pq := by
      rw [addToBalance_getElem?, if_neg (by omega), List.getElem?_append_left hjlen, hpq]
    rw [h1, h2, balanceOf_append]
    simp [balanceOf_cons, balanceOf_nil, hbq, hpqu, hpqa]
  · -- base row at i < l.length, quote row missing
    obtain ⟨pb, hpb, hpbu, hpba, hilen⟩ := findPortfolioIdx_some l uid base i hb
    rw [balanceOf_addToBalance, balanceOf_addToBalance]
    have h1 : (l ++ [(⟨uid, quote, 0⟩ : PortfolioEntry)])[i]? = some pb := by
      rw [List.getElem?_append_left hilen, hpb]
    have h2 : (addToBalance (l ++ [(⟨uid, quote, 0⟩ : PortfolioEntry)]) i dbase)[l.length]? =
        some ⟨uid, quote, 0⟩ := by
      rw [addToBalance_getElem?, if_neg (by omega), List.getElem?_concat_length]
    rw [h1, h2, balanceOf_append]
    have hnb : ¬(pb.user_id = uid ∧ pb.asset = quote) := by
      rintro ⟨-, hc⟩; exact hbq (by rw [← hpba, hc])
    simp [balanceOf_cons, balanceOf_nil, hnb, hpbu, hpba, hbq]
  · -- both rows present
    obtain ⟨pb, hpb, hpbu, hpba, hilen⟩ := findPortfolioIdx_some l uid base i hb
    obtain ⟨pq, hpq, hpqu, hpqa, hjlen⟩ := findPortfolioIdx_some l uid quote j hq
    have hij : i ≠ j := by
      rintro rfl
      rw [hpb] at hpq
      have : pb = pq := by injection hpq
      exact hbq (by rw [← hpba, this, hpqa])
    rw [balanceOf_addToBalance, balanceOf_addToBalance]
    have h2 : (addToBalance l i dbase)[j]? = some pq := by
      rw [addToBalance_getElem?, if_neg hij, hpq]
    have hnb : ¬(pb.user_id = uid ∧ pb.asset = quote) := by
      rintro ⟨-, hc⟩; exact hbq (by rw [← hpba, hc])
    rw [hpb, h2]
    simp [hpqu, hpqa, hnb]

/-! ## Branch equations for `create_order` -/

theorem create_order_market_eq (db : DB) (uid : Nat) (tr : TradeCreate) (m : Market)
    (b q : String)
    (hside : tr.side = "buy" ∨ tr.side = "sell")
    (htype : tr.order_type = "market")
    (hm : findMarket db tr.symbol = some m)
    (hsplit : symbolSplit tr.symbol = [b, q]) :
    create_order db uid tr =
      (.created
        { id := db.next_trade_id, symbol := tr.symbol, side := tr.side,
          order_type := tr.order_type, amount := tr.amount, price := m.price,
          status := "filled", executed := true, user_id := uid, bot_id := none },
       { db with
         trades := db.trades ++
           [{ id := db.next_trade_id, symbol := tr.symbol, side := tr.side,
              order_type := tr.order_type, amount := tr.amount, price := m.price,
              status := "filled", executed := true, user_id := uid, bot_id := none }],
         portfolios := settlePortfolio db.portfolios uid b q tr.side tr.amount m.price,
         next_trade_id := db.next_trade_id + 1 }) := by
  have hs1 : ¬(tr.side ≠ "buy" ∧ tr.side ≠ "sell") := by
    rcases hside with h | h <;> simp [h]
  simp [create_order, hs1, htype, hm, hsplit]

theorem create_order_limit_eq (db : DB) (uid : Nat) (tr : TradeCreate) (m : Market) (p : Rat)
    (hside : tr.side = "buy" ∨ tr.side = "sell")
    (htype : tr.order_type = "limit")
    (hprice : tr.price = some p) (hp0 : p ≠ 0)
    (hm : findMarket db tr.symbol = some m) :
    create_order db uid tr =
      (.created
        { id := db.next_trade_id, symbol := tr.symbol, side := tr.side,
          order_type := tr.order_type, amount := tr.amount, price := p,
          status := "open", executed := false, user_id := uid, bot_id := none },
       { db with
         trades := db.trades ++
           [{ id := db.next_trade_id, symbol := tr.symbol, side := tr.side,
              order_type := tr.order_type, amount := tr.amount, price := p,
              status := "open", executed := false, user_id := uid, bot_id := none }],
         next_trade_id := db.next_trade_id + 1 }) := by
  have hs1 : ¬(tr.side ≠ "buy" ∧ tr.side ≠ "sell") := by
    rcases hside with h | h <;> simp [h]
  simp [create_order, hs1, htype, hm, hprice, hp0]

theorem create_order_splitfail_eq (db : DB) (uid : Nat) (tr : TradeCreate) (m : Market)
    (hside : tr.side = "buy" ∨ tr.side = "sell")
    (htype : tr.order_type = "market")
    (hm : findMarket db tr.symbol = some m)
    (hsplit : (symbolSplit tr.symbol).length ≠ 2) :
    create_order db uid tr =
      (.serverError,
       { db with
         trades := db.trades ++
           [{ id := db.next_trade_id, symbol := tr.symbol, side := tr.side,
              order_type := tr.order_type, amount := tr.amount, price := m.price,
              status := "open", executed := false, user_id := uid, bot_id := none }],
         next_trade_id := db.next_trade_id + 1 }) := by
  have hs1 : ¬(tr.side ≠ "buy" ∧ tr.side ≠ "sell") := by
    rcases hside with h | h <;> simp [h]
  simp only [create_order, if_neg hs1, htype]
  rcases hss : symbolSplit tr.symbol with _ | ⟨x, _ | ⟨y, _ | ⟨z, rest⟩⟩⟩
  · simp [hm, hss]
  · simp [hm, hss]
  · exact absurd (by rw [hss]; rfl) hsplit
  · simp [hm, hss]

theorem create_order_nomarket_eq (db : DB) (uid : Nat) (tr : TradeCreate)
    (hside : tr.side = "buy" ∨ tr.side = "sell")
    (htype : tr.order_type = "market" ∨ tr.order_type = "limit")
    (hprice : ¬(tr.order_type = "limit" ∧ (tr.price = none ∨ tr.price = some 0)))
    (hm : findMarket db tr.symbol = none) :
    create_order db uid tr =
      (.badRequest ("Market " ++ tr.symbol ++ " not found"), db) := by
  have hs1 : ¬(tr.side ≠ "buy" ∧ tr.side ≠ "sell") := by
    rcases hside with h | h <;> simp [h]
  have ht1 : ¬(tr.order_type ≠ "market" ∧ tr.order_type ≠ "limit") := by
    rcases htype with h | h <;> simp [h]
  simp [create_order, hs1, ht1, hprice, hm]

theorem create_order_badside_eq (db : DB) (uid : Nat) (tr : TradeCreate)
    (h : tr.side ≠ "buy" ∧ tr.side ≠ "sell") :
    create_order db uid tr = (.badRequest "Side must be 'buy' or 'sell'", db) := by
  simp [create_order, h.1, h.2]

theorem create_order_badtype_eq (db : DB) (uid : Nat) (tr : TradeCreate)
    (hside : tr.side = "buy" ∨ tr.side = "sell")
    (h : tr.order_type ≠ "market" ∧ tr.order_type ≠ "limit") :
    create_order db uid tr = (.badRequest "Order type must be 'market' or 'limit'", db) := by
  have hs1 : ¬(tr.side ≠ "buy" ∧ tr.side ≠ "sell") := by
    rcases hside with hh | hh <;> simp [hh]
  simp [create_order, hs1, h.1, h.2]

theorem create_order_priceReq_eq (db : DB) (uid : Nat) (tr : TradeCreate)
    (hside : tr.side = "buy" ∨ tr.side = "sell")
    (htype : tr.order_type = "limit")
    (hprice : tr.price = none ∨ tr.price = some 0) :
    create_order db uid tr = (.badRequest "Price is required for limit orders", db) := by
  have hs1 : ¬(tr.side ≠ "buy" ∧ tr.side ≠ "sell") := by
    rcases hside with hh | hh <;> simp [hh]
  rcases hprice with hp | hp <;> simp [create_order, hs1, htype, hp]

/-! ## Frame lemmas: the handlers only ever append trade rows -/

theorem create_order_trades_extend (db : DB) (uid : Nat) (tr : TradeCreate) :
    ∃ ts, (create_order db uid tr).2.trades = db.trades ++ ts
      ∧ ∀ t ∈ ts, t.status = "open" ∨ t.status = "filled" := by
  by_cases hside : tr.side ≠ "buy" ∧ tr.side ≠ "sell"
  · rw [create_order_badside_eq db uid tr hside]; exact ⟨[], by simp, by simp⟩
  have hside' : tr.side = "buy" ∨ tr.side = "sell" := by tauto
  by_cases htype : tr.order_type ≠ "market" ∧ tr.order_type ≠ "limit"
  · rw [create_order_badtype_eq db uid tr hside' htype]; exact ⟨[], by simp, by simp⟩
  have htype' : tr.order_type = "market" ∨ tr.order_type = "limit" := by tauto
  rcases htype' with ht | ht
  · -- market order
    cases hm : findMarket db tr.symbol with
    | none =>
      rw [create_order_nomarket_eq db uid tr hside' (Or.inl ht) (by simp [ht]) hm]
      exact ⟨[], by simp, by simp⟩
    | some m =>
      by_cases hs2 : (symbolSplit tr.symbol).length = 2
      · obtain ⟨b, q, hss⟩ : ∃ b q, symbolSplit tr.symbol = [b, q] := by
          rcases hl : symbolSplit tr.symbol with _ | ⟨x, _ | ⟨y, _ | ⟨z, rest⟩⟩⟩ <;>
            first
              | (exact ⟨x, y, rfl⟩)
              | simp [hl] at hs2
        rw [create_order_market_eq db uid tr m b q hside' ht hm hss]
        exact ⟨[{ id := db.next_trade_id, symbol := tr.symbol, side := tr.side,
                  order_type := tr.order_type, amount := tr.amount, price := m.price,
                  status := "filled", executed := true, user_id := uid, bot_id := none }],
          by simp, by simp⟩
      · rw [create_order_splitfail_eq db uid tr m hside' ht hm hs2]
        exact ⟨[{ id := db.next_trade_id, symbol := tr.symbol, side := tr.side,
                  order_type := tr.order_type, amount := tr.amount, price := m.price,
                  status := "open", executed := false, user_id := uid, bot_id := none }],
          by simp, by simp⟩
  · -- limit order
    by_cases hpr : tr.price = none ∨ tr.price = some 0
    · rw [create_order_priceReq_eq db uid tr hside' ht hpr]
      exact ⟨[], by simp, by simp⟩
    · obtain ⟨p, hp, hp0⟩ : ∃ p, tr.price = some p ∧ p ≠ 0 := by
        cases hp : tr.price with
        | none => exact absurd (Or.inl hp) hpr
        | some p =>
          refine ⟨p, rfl, fun hc => ?_⟩
          exact hpr (Or.inr (by rw [hp, hc]))
      cases hm : findMarket db tr.symbol with
      | none =>
        rw [create_order_nomarket_eq db uid tr hside' (Or.inr ht)
          (by rintro ⟨-, hc⟩; exact hpr hc) hm]
        exact ⟨[], by simp, by simp⟩
      | some m =>
        rw [create_order_limit_eq db uid tr m p hside' ht hp hp0 hm]
        exact ⟨[{ id := db.next_trade_id, symbol := tr.symbol, side := tr.side,
                  order_type := tr.order_type, amount := tr.amount, price := p,
                  status := "open", executed := false, user_id := uid, bot_id := none }],
          by simp, by simp⟩

theorem setBotStatus_trades (db : DB) (bot_id : Nat) (s : String) :
    (setBotStatus db bot_id s).trades = db.trades := rfl

theorem setBotStatus_portfolios (db : DB) (bot_id : Nat) (s : String) :
    (setBotStatus db bot_id s).portfolios = db.portfolios := rfl

theorem setBotStatus_next_id (db : DB) (bot_id : Nat) (s : String) :
    (setBotStatus db bot_id s).next_trade_id = db.next_trade_id := rfl

theorem setBotStatus_markets (db : DB) (bot_id : Nat) (s : String) :
    (setBotStatus db bot_id s).markets = db.markets := rfl

theorem findMarket_setBotStatus (db : DB) (bot_id : Nat) (s sym : String) :
    findMarket (setBotStatus db bot_id s) sym = findMarket db sym := rfl

theorem run_bot_task_trades_extend (db : DB) (bot_id : Nat) :
    ∃ ts, (run_bot_task db bot_id).trades = db.trades ++ ts
      ∧ ∀ t ∈ ts, t.status = "open" ∨ t.status = "filled" := by
  cases hbot : findBot db bot_id with
  | none => exact ⟨[], by simp [run_bot_task, hbot], by simp⟩
  | some bot =>
    cases hcfg : bot.config with
    | malformed =>
      exact ⟨[], by simp [run_bot_task, hbot, hcfg, setBotStatus_trades], by simp⟩
    | parsed symOpt sideOpt amtOpt =>
      cases hm : findMarket (setBotStatus db bot_id "running") (symOpt.getD "BTC/USD") with
      | none =>
        exact ⟨[], by simp [run_bot_task, hbot, hcfg, hm, setBotStatus_trades], by simp⟩
      | some m =>
        exact ⟨[{ id := db.next_trade_id, symbol := symOpt.getD "BTC/USD",
                  side := sideOpt.getD "buy", order_type := "market",
                  amount := amtOpt.getD (1 / 100), price := m.price,
                  status := "filled", executed := true, user_id := bot.owner_id,
                  bot_id := some bot_id }],
          by simp [run_bot_task, hbot, hcfg, hm, setBotStatus_trades, setBotStatus_next_id],
          by simp⟩

theorem run_bot_task_portfolios (db : DB) (bot_id : Nat) :
    (run_bot_task db bot_id).portfolios = db.portfolios := by
  cases hbot : findBot db bot_id with
  | none => simp [run_bot_task, hbot]
  | some bot =>
    cases hcfg : bot.config with
    | malformed => simp [run_bot_task, hbot, hcfg, setBotStatus_portfolios]
    | parsed symOpt sideOpt amtOpt =>
      cases hm : findMarket (setBotStatus db bot_id "running") (symOpt.getD "BTC/USD") with
      | none => simp [run_bot_task, hbot, hcfg, hm, setBotStatus_portfolios]
      | some m => simp [run_bot_task, hbot, hcfg, hm, setBotStatus_portfolios]

/-! ## Concrete state used to instantiate the theorems -/

/-- One BTC/USD market at price 100, one market whose symbol has no slash,
a stopped bot (id 1, owner 7) configured to buy 2 BTC/USD, no portfolio
rows, no trades. -/
def exampleDb : DB :=
  { markets := [⟨"BTC/USD", "BTC", "USD", 100, 1000, 2⟩, ⟨"XRPUSD", "XRP", "USD", 3, 50, 1⟩],
    portfolios := [],
    trades := [],
    bots := [{ id := 1, name := "mybot", strategy := "dca",
               config := .parsed (some "BTC/USD") (some "buy") (some 2),
               status := "stopped", owner_id := 7 }],
    next_trade_id := 0 }

/-- A symbol longer than the side-validation error message. -/
def longSymbol : String := "AAAAAAAAAAAAAAAAAAAAAAAAAAAAAAAAAAAAAAAA/USD"

/-! ## Claims -/

/-- C4: every order submission with `order_type = "limit"` and no price is
rejected with a 400 client error and the database is left unchanged — in
particular no trade row is created. -/
theorem c4_limit_without_price_rejected (db : DB) (uid : Nat) (tr : TradeCreate)
    (hlimit : tr.order_type = "limit") (hnone : tr.price = none) :
    ∃ msg, create_order db uid tr = (.badRequest msg, db) := by
  by_cases hside : tr.side ≠ "buy" ∧ tr.side ≠ "sell"
  · exact ⟨_, create_order_badside_eq db uid tr hside⟩
  · exact ⟨_, create_order_priceReq_eq db uid tr (by tauto) hlimit (Or.inl hnone)⟩

/-- Witness for C4 at a concrete limit order with an absent price. -/
theorem c4_witness :
    (⟨"BTC/USD", "buy", "limit", 1, none⟩ : TradeCreate).order_type = "limit"
    ∧ (⟨"BTC/USD", "buy", "limit", 1, none⟩ : TradeCreate).price = none
    ∧ ∃ msg, create_order exampleDb 7 ⟨"BTC/USD", "buy", "limit", 1, none⟩
        = (.badRequest msg, exampleDb) :=
  ⟨rfl, rfl, c4_limit_without_price_rejected exampleDb 7 _ rfl rfl⟩

/-- C9 counterexample: a limit order with price 0 but an invalid side is
rejected by the earlier side check, so the returned client error is
"Side must be 'buy' or 'sell'", not "Price is required for limit orders"
as the claim requires for every such submission. -/
theorem c9_counterexample :
    create_order exampleDb 7 ⟨"BTC/USD", "hold", "limit", 1, some 0⟩
      = (.badRequest "Side must be 'buy' or 'sell'", exampleDb)
    ∧ "Side must be 'buy' or 'sell'" ≠ "Price is required for limit orders" :=
  ⟨create_order_badside_eq _ _ _ ⟨by decide, by decide⟩, by decide⟩

/-- C9 (amended): every order submission with a valid side,
`order_type = "limit"` and a supplied price equal to 0 is rejected with the
"Price is required for limit orders" client error — the presence check
treats a zero price like an absent one — and the database is unchanged. -/
theorem c9_zero_price_rejected (db : DB) (uid : Nat) (tr : TradeCreate)
    (hside : tr.side = "buy" ∨ tr.side = "sell")
    (hlimit : tr.order_type = "limit") (hzero : tr.price = some 0) :
    create_order db uid tr = (.badRequest "Price is required for limit orders", db) :=
  create_order_priceReq_eq db uid tr hside hlimit (Or.inr hzero)

/-- Witness for the amended C9 at a concrete zero-price limit order. -/
theorem c9_witness :
    ((⟨"BTC/USD", "sell", "limit", 1, some 0⟩ : TradeCreate).side = "buy"
       ∨ (⟨"BTC/USD", "sell", "limit", 1, some 0⟩ : TradeCreate).side = "sell")
    ∧ create_order exampleDb 7 ⟨"BTC/USD", "sell", "limit", 1, some 0⟩
        = (.badRequest "Price is required for limit orders", exampleDb) :=
  ⟨Or.inr rfl, c9_zero_price_rejected exampleDb 7 _ (Or.inr rfl) rfl rfl⟩

/-- C5 counterexample: an order whose symbol resolves to no market but whose
side is invalid is rejected by the side check, and that error message cannot
mention the (longer) symbol, contradicting the claim for every unknown-symbol
submission. -/
theorem c5_counterexample :
    findMarket exampleDb longSymbol = none
    ∧ create_order exampleDb 7 ⟨longSymbol, "hold", "market", 1, none⟩
        = (.badRequest "Side must be 'buy' or 'sell'", exampleDb)
    ∧ ¬ mentions "Side must be 'buy' or 'sell'" longSymbol := by
  refine ⟨by decide, create_order_badside_eq _ _ _ ⟨by decide, by decide⟩, ?_⟩
  rintro ⟨pre, post, hmsg⟩
  have hlen := congrArg String.length hmsg
  rw [String.length_append, String.length_append] at hlen
  have h1 : ("Side must be 'buy' or 'sell'" : String).length = 28 := by decide
  have h2 : longSymbol.length = 44 := by decide
  rw [h1, h2] at hlen
  omega

/-- C5 (amended): every order submission that passes the side, order-type and
limit-price validations and whose symbol resolves to no market row is
rejected with a client error whose message mentions that symbol, and the
database is unchanged. -/
theorem c5_unknown_symbol_rejected (db : DB) (uid : Nat) (tr : TradeCreate)
    (hside : tr.side = "buy" ∨ tr.side = "sell")
    (htype : tr.order_type = "market" ∨ tr.order_type = "limit")
    (hprice : ¬(tr.order_type = "limit" ∧ (tr.price = none ∨ tr.price = some 0)))
    (hm : findMarket db tr.symbol = none) :
    create_order db uid tr = (.badRequest ("Market " ++ tr.symbol ++ " not found"), db)
    ∧ mentions ("Market " ++ tr.symbol ++ " not found") tr.symbol :=
  ⟨create_order_nomarket_eq db uid tr hside htype hprice hm,
   "Market ", " not found", rfl⟩

/-- Witness for the amended C5 at a concrete unknown symbol. -/
theorem c5_witness :
    findMarket exampleDb "ETH/USD" = none
    ∧ create_order exampleDb 7 ⟨"ETH/USD", "buy", "market", 1, none⟩
        = (.badRequest ("Market " ++ "ETH/USD" ++ " not found"), exampleDb)
    ∧ mentions ("Market " ++ "ETH/USD" ++ " not found") "ETH/USD" :=
  ⟨by decide,
   (c5_unknown_symbol_rejected exampleDb 7 ⟨"ETH/USD", "buy", "market", 1, none⟩
     (Or.inl rfl) (Or.inl rfl)
     (by rintro ⟨hc, -⟩; exact absurd hc (by decide)) (by decide)).1,
   (c5_unknown_symbol_rejected exampleDb 7 ⟨"ETH/USD", "buy", "market", 1, none⟩
     (Or.inl rfl) (Or.inl rfl)
     (by rintro ⟨hc, -⟩; exact absurd hc (by decide)) (by decide)).2⟩

/-- C10: a market order whose symbol resolves to a market but does not split
into exactly two "/"-separated parts errors after the trade row was already
committed: the result is a server error, the database keeps the new trade
row with status "open", and the portfolio rows are untouched. -/
theorem c10_splitfail_persists_trade (db : DB) (uid : Nat) (tr : TradeCreate) (m : Market)
    (hside : tr.side = "buy" ∨ tr.side = "sell")
    (htype : tr.order_type = "market")
    (hm : findMarket db tr.symbol = some m)
    (hsplit : (symbolSplit tr.symbol).length ≠ 2) :
    ∃ t, create_order db uid tr =
        (.serverError,
         { db with trades := db.trades ++ [t], next_trade_id := db.next_trade_id + 1 })
      ∧ t.status = "open" ∧ t.symbol = tr.symbol ∧ t.user_id = uid
      ∧ (create_order db uid tr).2.portfolios = db.portfolios := by
  rw [create_order_splitfail_eq db uid tr m hside htype hm hsplit]
  exact ⟨_, rfl, rfl, rfl, rfl, rfl⟩

/-- Witness for C10 at the slash-free market symbol "XRPUSD". -/
theorem c10_witness :
    findMarket exampleDb "XRPUSD" = some ⟨"XRPUSD", "XRP", "USD", 3, 50, 1⟩
    ∧ (symbolSplit "XRPUSD").length ≠ 2
    ∧ ∃ t, create_order exampleDb 7 ⟨"XRPUSD", "buy", "market", 1, none⟩ =
        (.serverError,
         { exampleDb with trades := exampleDb.trades ++ [t],
                          next_trade_id := exampleDb.next_trade_id + 1 })
      ∧ t.status = "open" ∧ t.symbol = "XRPUSD" ∧ t.user_id = 7
      ∧ (create_order exampleDb 7 ⟨"XRPUSD", "buy", "market", 1, none⟩).2.portfolios
          = exampleDb.portfolios :=
  ⟨by decide, by decide,
   c10_splitfail_persists_trade exampleDb 7 _ ⟨"XRPUSD", "XRP", "USD", 3, 50, 1⟩
     (Or.inl rfl) rfl (by decide) (by decide)⟩

/-- C6: the fill price stored on a created trade is the supplied price for a
limit order and the market's current price for a market order; a market
order is immediately "filled" with an execution timestamp while a limit
order is persisted "open"; and no in-scope operation ever modifies a trade
row that already exists — both handlers only append to the trades table. -/
theorem c6_execution_resolver (db : DB) (uid : Nat) (tr : TradeCreate) (m : Market)
    (hside : tr.side = "buy" ∨ tr.side = "sell")
    (hm : findMarket db tr.symbol = some m) :
    (∀ p, tr.order_type = "limit" → tr.price = some p → p ≠ 0 →
      ∃ t db2, create_order db uid tr = (.created t, db2)
        ∧ t.price = p ∧ t.status = "open" ∧ t.executed = false)
    ∧ (∀ b q, tr.order_type = "market" → symbolSplit tr.symbol = [b, q] →
      ∃ t db2, create_order db uid tr = (.created t, db2)
        ∧ t.price = m.price ∧ t.status = "filled" ∧ t.executed = true)
    ∧ (∀ db0 uid0 tr0, ∃ ts, (create_order db0 uid0 tr0).2.trades = db0.trades ++ ts)
    ∧ (∀ db0 i, ∃ ts, (run_bot_task db0 i).trades = db0.trades ++ ts) := by
  refine ⟨?_, ?_, ?_, ?_⟩
  · intro p hlim hp hp0
    exact ⟨_, _, create_order_limit_eq db uid tr m p hside hlim hp hp0 hm, rfl, rfl, rfl⟩
  · intro b q hmkt hss
    exact ⟨_, _, create_order_market_eq db uid tr m b q hside hmkt hm hss, rfl, rfl, rfl⟩
  · intro db0 uid0 tr0
    obtain ⟨ts, h1, -⟩ := create_order_trades_extend db0 uid0 tr0
    exact ⟨ts, h1⟩
  · intro db0 i
    obtain ⟨ts, h1, -⟩ := run_bot_task_trades_extend db0 i
    exact ⟨ts, h1⟩

/-- Witness for C6 at the concrete BTC/USD market. -/
theorem c6_witness :
    ((⟨"BTC/USD", "buy", "market", 2, none⟩ : TradeCreate).side = "buy"
       ∨ (⟨"BTC/USD", "buy", "market", 2, none⟩ : TradeCreate).side = "sell")
    ∧ findMarket exampleDb "BTC/USD" = some ⟨"BTC/USD", "BTC", "USD", 100, 1000, 2⟩
    ∧ ((∀ p, ("market" : String) = "limit" →
          (⟨"BTC/USD", "buy", "market", 2, none⟩ : TradeCreate).price = some p → p ≠ 0 →
          ∃ t db2, create_order exampleDb 7 ⟨"BTC/USD", "buy", "market", 2, none⟩ = (.created t, db2)
            ∧ t.price = p ∧ t.status = "open" ∧ t.executed = false)
      ∧ (∀ b q, ("market" : String) = "market" → symbolSplit "BTC/USD" = [b, q] →
          ∃ t db2, create_order exampleDb 7 ⟨"BTC/USD", "buy", "market", 2, none⟩ = (.created t, db2)
            ∧ t.price = (100 : Rat) ∧ t.status = "filled" ∧ t.executed = true)
      ∧ (∀ db0 uid0 tr0, ∃ ts, (create_order db0 uid0 tr0).2.trades = db0.trades ++ ts)
      ∧ (∀ db0 i, ∃ ts, (run_bot_task db0 i).trades = db0.trades ++ ts)) :=
  ⟨Or.inl rfl, by decide,
   c6_execution_resolver exampleDb 7 ⟨"BTC/USD", "buy", "market", 2, none⟩
     ⟨"BTC/USD", "BTC", "USD", 100, 1000, 2⟩ (Or.inl rfl) (by decide)⟩

/-- All trade rows of a state have status "open" or "filled". -/
def tradeStatusesOk (db : DB) : Prop :=
  ∀ t ∈ db.trades, t.status = "open" ∨ t.status = "filled"

/-- C8: no in-scope operation ever sets a trade's status to "canceled": if
every trade row of a state has status "open" or "filled", the same holds
after any order submission and after any bot task run. -/
theorem c8_no_canceled_status (db : DB) (h : tradeStatusesOk db) :
    (∀ uid tr, tradeStatusesOk (create_order db uid tr).2)
    ∧ (∀ i, tradeStatusesOk (run_bot_task db i)) := by
  constructor
  · intro uid tr
    obtain ⟨ts, heq, hts⟩ := create_order_trades_extend db uid tr
    intro t ht
    rw [heq] at ht
    rcases List.mem_append.mp ht with h1 | h1
    exacts [h t h1, hts t h1]
  · intro i
    obtain ⟨ts, heq, hts⟩ := run_bot_task_trades_extend db i
    intro t ht
    rw [heq] at ht
    rcases List.mem_append.mp ht with h1 | h1
    exacts [h t h1, hts t h1]

/-- Witness for C8 at the concrete state. -/
theorem c8_witness :
    tradeStatusesOk exampleDb
    ∧ ((∀ uid tr, tradeStatusesOk (create_order exampleDb uid tr).2)
       ∧ (∀ i, tradeStatusesOk (run_bot_task exampleDb i))) :=
  ⟨by intro t ht; simp [exampleDb] at ht,
   c8_no_canceled_status exampleDb (by intro t ht; simp [exampleDb] at ht)⟩

/-- C7: the portfolio listing returns exactly one entry per portfolio row of
the user whose balance is not 0, in table order, and the entry's `value_usd`
is `balance * price` of the "{asset}/USD" market when that market row
exists, else `none`. -/
theorem c7_portfolio_listing (db : DB) (uid : Nat) :
    get_portfolio db uid =
      ((db.portfolios.filter (fun p => p.user_id = uid)).filter
        (fun p => ¬(p.balance = 0))).map
        (fun item =>
          { asset := item.asset, balance := item.balance,
            value_usd :=
              match findMarket db (item.asset ++ "/USD") with
              | some m => some (item.balance * m.price)
              | none => none }) := by
  have henrich : (fun item : PortfolioEntry =>
      ({ asset := item.asset, balance := item.balance,
         value_usd := (findMarket db (item.asset ++ "/USD")).map
           (fun m => item.balance * m.price) } : PortfolioItem)) =
      (fun item : PortfolioEntry =>
        ({ asset := item.asset, balance := item.balance,
           value_usd :=
             match findMarket db (item.asset ++ "/USD") with
             | some m => some (item.balance * m.price)
             | none => none } : PortfolioItem)) := by
    funext item
    cases h : findMarket db (item.asset ++ "/USD") <;> simp [h]
  have key : ∀ (l : List PortfolioEntry) (acc : List PortfolioItem),
      l.foldl (fun result item =>
          if item.balance = 0 then result
          else result ++ [{ asset := item.asset, balance := item.balance,
                            value_usd := (findMarket db (item.asset ++ "/USD")).map
                              (fun m => item.balance * m.price) }]) acc
        = acc ++ (l.filter (fun p => ¬(p.balance = 0))).map
            (fun item =>
              { asset := item.asset, balance := item.balance,
                value_usd := (findMarket db (item.asset ++ "/USD")).map
                  (fun m => item.balance * m.price) }) := by
    intro l
    induction l with
    | nil => intro acc; simp
    | cons p rest ih =>
      intro acc
      by_cases h : p.balance = 0 <;> simp [h, ih, List.filter_cons]
  rw [← henrich]
  simpa [get_portfolio] using
    key (db.portfolios.filter (fun p => p.user_id = uid)) []

/-- C1: a market order with a valid side whose symbol resolves to a market
with price `m.price` and splits into distinct base and quote assets settles
by adding `amount` to the base balance and subtracting `amount * price` from
the quote balance on a buy, and the mirror image on a sell; for a user with
no prior portfolio rows this produces exactly two rows holding those
deltas. -/
theorem c1_market_order_settlement (db : DB) (uid : Nat) (tr : TradeCreate) (m : Market)
    (b q : String)
    (hside : tr.side = "buy" ∨ tr.side = "sell")
    (htype : tr.order_type = "market")
    (hm : findMarket db tr.symbol = some m)
    (hsplit : symbolSplit tr.symbol = [b, q])
    (hbq : b ≠ q) :
    ∃ t db2, create_order db uid tr = (.created t, db2)
      ∧ balanceOf db2.portfolios uid b =
          balanceOf db.portfolios uid b +
            (if tr.side = "buy" then tr.amount else -tr.amount)
      ∧ balanceOf db2.portfolios uid q =
          balanceOf db.portfolios uid q +
            (if tr.side = "buy" then -(tr.amount * m.price) else tr.amount * m.price)
      ∧ (db.portfolios.filter (fun p => p.user_id = uid) = [] →
          db2.portfolios.filter (fun p => p.user_id = uid) =
            [⟨uid, b, if tr.side = "buy" then tr.amount else -tr.amount⟩,
             ⟨uid, q, if tr.side = "buy" then -(tr.amount * m.price)
                      else tr.amount * m.price⟩]) := by
  refine ⟨_, _, create_order_market_eq db uid tr m b q hside htype hm hsplit, ?_, ?_, ?_⟩
  · show balanceOf (settlePortfolio db.portfolios uid b q tr.side tr.amount m.price) uid b = _
    rw [settlePortfolio_eq_settleDeltas,
      balanceOf_settleDeltas_base db.portfolios uid b q _ _ hbq]
  · show balanceOf (settlePortfolio db.portfolios uid b q tr.side tr.amount m.price) uid q = _
    rw [settlePortfolio_eq_settleDeltas,
      balanceOf_settleDeltas_quote db.portfolios uid b q _ _ hbq]
  · intro hempty
    have hnouser : ∀ p ∈ db.portfolios, p.user_id ≠ uid := by
      intro p hp hc
      have hmem : p ∈ db.portfolios.filter (fun p => p.user_id = uid) :=
        List.mem_filter.mpr ⟨hp, by simp [hc]⟩
      rw [hempty] at hmem
      simp at hmem
    show (settlePortfolio db.portfolios uid b q tr.side tr.amount m.price).filter
        (fun p => p.user_id = uid) = _
    rw [settlePortfolio_eq_settleDeltas,
      settleDeltas_of_no_user_rows db.portfolios uid b q _ _ hnouser,
      List.filter_append, hempty]
    simp

/-- Witness for C1 at a concrete buy of 2 BTC/USD by a user with no
portfolio rows. -/
theorem c1_witness :
    findMarket exampleDb "BTC/USD" = some ⟨"BTC/USD", "BTC", "USD", 100, 1000, 2⟩
    ∧ symbolSplit "BTC/USD" = ["BTC", "USD"]
    ∧ ("BTC" : String) ≠ "USD"
    ∧ ∃ t db2, create_order exampleDb 7 ⟨"BTC/USD", "buy", "market", 2, none⟩ = (.created t, db2)
      ∧ balanceOf db2.portfolios 7 "BTC" =
          balanceOf exampleDb.portfolios 7 "BTC" + (if ("buy" : String) = "buy" then 2 else -2)
      ∧ balanceOf db2.portfolios 7 "USD" =
          balanceOf exampleDb.portfolios 7 "USD" +
            (if ("buy" : String) = "buy" then -((2 : Rat) * 100) else (2 : Rat) * 100)
      ∧ (exampleDb.portfolios.filter (fun p => p.user_id = 7) = [] →
          db2.portfolios.filter (fun p => p.user_id = 7) =
            [⟨7, "BTC", if ("buy" : String) = "buy" then 2 else -2⟩,
             ⟨7, "USD", if ("buy" : String) = "buy" then -((2 : Rat) * 100)
                        else (2 : Rat) * 100⟩]) :=
  ⟨by decide, by decide, by decide,
   c1_market_order_settlement exampleDb 7 ⟨"BTC/USD", "buy", "market", 2, none⟩
     ⟨"BTC/USD", "BTC", "USD", 100, 1000, 2⟩ "BTC" "USD"
     (Or.inl rfl) rfl (by decide) (by decide) (by decide)⟩

/-- C3: submitting the identical valid market-order request twice in
sequence creates two distinct trade rows (different primary keys) and
applies the settlement deltas twice: the net change of each balance after
the two calls is exactly double the change after the first call. -/
theorem c3_double_submission (db : DB) (uid : Nat) (tr : TradeCreate) (m : Market)
    (b q : String)
    (hside : tr.side = "buy" ∨ tr.side = "sell")
    (htype : tr.order_type = "market")
    (hm : findMarket db tr.symbol = some m)
    (hsplit : symbolSplit tr.symbol = [b, q])
    (hbq : b ≠ q) :
    ∃ t1 t2 db1 db2,
      create_order db uid tr = (.created t1, db1)
      ∧ create_order db1 uid tr = (.created t2, db2)
      ∧ db2.trades = db.trades ++ [t1, t2]
      ∧ t1.id ≠ t2.id
      ∧ balanceOf db2.portfolios uid b - balanceOf db.portfolios uid b
          = 2 * (balanceOf db1.portfolios uid b - balanceOf db.portfolios uid b)
      ∧ balanceOf db2.portfolios uid q - balanceOf db.portfolios uid q
          = 2 * (balanceOf db1.portfolios uid q - balanceOf db.portfolios uid q) := by
  have e1 := create_order_market_eq db uid tr m b q hside htype hm hsplit
  have e2 := create_order_market_eq
    { db with
      trades := db.trades ++
        [{ id := db.next_trade_id, symbol := tr.symbol, side := tr.side,
           order_type := tr.order_type, amount := tr.amount, price := m.price,
           status := "filled", executed := true, user_id := uid, bot_id := none }],
      portfolios := settlePortfolio db.portfolios uid b q tr.side tr.amount m.price,
      next_trade_id := db.next_trade_id + 1 }
    uid tr m b q hside htype hm hsplit
  refine ⟨_, _, _, _, e1, e2, ?_, ?_, ?_, ?_⟩
  · simp
  · simp
  · have hb1 : balanceOf
        (settlePortfolio db.portfolios uid b q tr.side tr.amount m.price) uid b =
        balanceOf db.portfolios uid b +
          (if tr.side = "buy" then tr.amount else -tr.amount) := by
      rw [settlePortfolio_eq_settleDeltas,
        balanceOf_settleDeltas_base db.portfolios uid b q _ _ hbq]
    have hb2 : balanceOf
        (settlePortfolio (settlePortfolio db.portfolios uid b q tr.side tr.amount m.price)
          uid b q tr.side tr.amount m.price) uid b =
        balanceOf (settlePortfolio db.portfolios uid b q tr.side tr.amount m.price) uid b +
          (if tr.side = "buy" then tr.amount else -tr.amount) := by
      rw [settlePortfolio_eq_settleDeltas
          (settlePortfolio db.portfolios uid b q tr.side tr.amount m.price),
        balanceOf_settleDeltas_base _ uid b q _ _ hbq]
    show balanceOf (settlePortfolio (settlePortfolio db.portfolios uid b q tr.side
        tr.amount m.price) uid b q tr.side tr.amount m.price) uid b
        - balanceOf db.portfolios uid b
      = 2 * (balanceOf (settlePortfolio db.portfolios uid b q tr.side tr.amount m.price) uid b
        - balanceOf db.portfolios uid b)
    rw [hb2, hb1]
    ring
  · have hq1 : balanceOf
        (settlePortfolio db.portfolios uid b q tr.side tr.amount m.price) uid q =
        balanceOf db.portfolios uid q +
          (if tr.side = "buy" then -(tr.amount * m.price) else tr.amount * m.price) := by
      rw [settlePortfolio_eq_settleDeltas,
        balanceOf_settleDeltas_quote db.portfolios uid b q _ _ hbq]
    have hq2 : balanceOf
        (settlePortfolio (settlePortfolio db.portfolios uid b q tr.side tr.amount m.price)
          uid b q tr.side tr.amount m.price) uid q =
        balanceOf (settlePortfolio db.portfolios uid b q tr.side tr.amount m.price) uid q +
          (if tr.side = "buy" then -(tr.amount * m.price) else tr.amount * m.price) := by
      rw [settlePortfolio_eq_settleDeltas
          (settlePortfolio db.portfolios uid b q tr.side tr.amount m.price),
        balanceOf_settleDeltas_quote _ uid b q _ _ hbq]
    show balanceOf (settlePortfolio (settlePortfolio db.portfolios uid b q tr.side
        tr.amount m.price) uid b q tr.side tr.amount m.price) uid q
        - balanceOf db.portfolios uid q
      = 2 * (balanceOf (settlePortfolio db.portfolios uid b q tr.side tr.amount m.price) uid q
        - balanceOf db.portfolios uid q)
    rw [hq2, hq1]
    ring

/-- Witness for C3 at a concrete buy of 2 BTC/USD repeated twice. -/
theorem c3_witness :
    findMarket exampleDb "BTC/USD" = some ⟨"BTC/USD", "BTC", "USD", 100, 1000, 2⟩
    ∧ ∃ t1 t2 db1 db2,
      create_order exampleDb 7 ⟨"BTC/USD", "buy", "market", 2, none⟩ = (.created t1, db1)
      ∧ create_order db1 7 ⟨"BTC/USD", "buy", "market", 2, none⟩ = (.created t2, db2)
      ∧ db2.trades = exampleDb.trades ++ [t1, t2]
      ∧ t1.id ≠ t2.id
      ∧ balanceOf db2.portfolios 7 "BTC" - balanceOf exampleDb.portfolios 7 "BTC"
          = 2 * (balanceOf db1.portfolios 7 "BTC" - balanceOf exampleDb.portfolios 7 "BTC")
      ∧ balanceOf db2.portfolios 7 "USD" - balanceOf exampleDb.portfolios 7 "USD"
          = 2 * (balanceOf db1.portfolios 7 "USD" - balanceOf exampleDb.portfolios 7 "USD") :=
  ⟨by decide,
   c3_double_submission exampleDb 7 ⟨"BTC/USD", "buy", "market", 2, none⟩
     ⟨"BTC/USD", "BTC", "USD", 100, 1000, 2⟩ "BTC" "USD"
     (Or.inl rfl) rfl (by decide) (by decide) (by decide)⟩

/-- C2 counterexample: starting the stopped bot of `exampleDb` succeeds and
schedules exactly one task, and running that task records one trade, yet the
owner's portfolio stays empty — while the settlement rules applied to an
empty portfolio are required to produce rows.  The task never mutates any
asset balance, contradicting the claim's "settlement attempt mutating the
owner's asset balances". -/
theorem c2_counterexample :
    start_bot exampleDb 7 1 =
      .ok ({ success := true, message := "Bot started successfully", status := "starting" },
        exampleDb, [1])
    ∧ (run_bot_task exampleDb 1).trades.length = 1
    ∧ (run_bot_task exampleDb 1).portfolios = []
    ∧ settlePortfolio [] 7 "BTC" "USD" "buy" 2 100 ≠ [] := by
  refine ⟨rfl, by decide, by decide, by decide⟩

/-- C2 (amended): for a bot owned by the requesting user, a start request
while the bot is "running" answers success = false and changes nothing; a
start request while it is "stopped" answers success = true and schedules
exactly one task which flips the bot's status to "running", reads
(symbol, side, amount) from the parsed configuration with defaults
"BTC/USD" / "buy" / 0.01, and, when the symbol resolves to a market,
records a single already-filled market trade for the bot's owner without
touching any portfolio balance; when it does not resolve, it does nothing
further. -/
theorem c2_bot_start (db : DB) (uid bot_id : Nat) (bot : Bot)
    (hb : findBotOwned db bot_id uid = some bot)
    (hfind : findBot db bot_id = some bot) :
    (bot.status = "running" →
      start_bot db uid bot_id =
        .ok ({ success := false, message := "Bot is already running", status := bot.status },
          db, []))
    ∧ (bot.status = "stopped" →
      start_bot db uid bot_id =
        .ok ({ success := true, message := "Bot started successfully", status := "starting" },
          db, [bot_id])
      ∧ ∀ symOpt sideOpt amtOpt, bot.config = .parsed symOpt sideOpt amtOpt →
          ((∀ m, findMarket db (symOpt.getD "BTC/USD") = some m →
            run_bot_task db bot_id =
              { setBotStatus db bot_id "running" with
                trades := db.trades ++
                  [{ id := db.next_trade_id, symbol := symOpt.getD "BTC/USD",
                     side := sideOpt.getD "buy", order_type := "market",
                     amount := amtOpt.getD (1 / 100), price := m.price,
                     status := "filled", executed := true, user_id := bot.owner_id,
                     bot_id := some bot_id }],
                next_trade_id := db.next_trade_id + 1 }
            ∧ (run_bot_task db bot_id).portfolios = db.portfolios)
          ∧ (findMarket db (symOpt.getD "BTC/USD") = none →
             run_bot_task db bot_id = setBotStatus db bot_id "running"))) := by
  constructor
  · intro hrun
    simp [start_bot, hb, hrun]
  · intro hstop
    have hnotrun : ¬(bot.status = "running") := by rw [hstop]; decide
    refine ⟨by simp [start_bot, hb, hnotrun], ?_⟩
    intro symOpt sideOpt amtOpt hcfg
    constructor
    · intro m hm
      have hm1 : findMarket (setBotStatus db bot_id "running") (symOpt.getD "BTC/USD")
          = some m := by rw [findMarket_setBotStatus]; exact hm
      refine ⟨?_, run_bot_task_portfolios db bot_id⟩
      simp [run_bot_task, hfind, hcfg, hm1, setBotStatus_trades, setBotStatus_next_id]
    · intro hmn
      have hm1 : findMarket (setBotStatus db bot_id "running") (symOpt.getD "BTC/USD")
          = none := by rw [findMarket_setBotStatus]; exact hmn
      simp [run_bot_task, hfind, hcfg, hm1]

/-- Witness for the amended C2 at the stopped bot of `exampleDb`. -/
theorem c2_witness :
    findBotOwned exampleDb 1 7 =
      some { id := 1, name := "mybot", strategy := "dca",
             config := .parsed (some "BTC/USD") (some "buy") (some 2),
             status := "stopped", owner_id := 7 }
    ∧ findBot exampleDb 1 =
      some { id := 1, name := "mybot", strategy := "dca",
             config := .parsed (some "BTC/USD") (some "buy") (some 2),
             status := "stopped", owner_id := 7 }
    ∧ (({ id := 1, name := "mybot", strategy := "dca",
          config := .parsed (some "BTC/USD") (some "buy") (some 2),
          status := "stopped", owner_id := 7 } : Bot).status = "stopped" →
        start_bot exampleDb 7 1 =
          .ok ({ success := true, message := "Bot started successfully", status := "starting" },
            exampleDb, [1])
        ∧ ∀ symOpt sideOpt amtOpt,
            ({ id := 1, name := "mybot", strategy := "dca",
               config := .parsed (some "BTC/USD") (some "buy") (some 2),
               status := "stopped", owner_id := 7 } : Bot).config
              = .parsed symOpt sideOpt amtOpt →
            ((∀ m, findMarket exampleDb (symOpt.getD "BTC/USD") = some m →
              run_bot_task exampleDb 1 =
                { setBotStatus exampleDb 1 "running" with
                  trades := exampleDb.trades ++
                    [{ id := exampleDb.next_trade_id, symbol := symOpt.getD "BTC/USD",
                       side := sideOpt.getD "buy", order_type := "market",
                       amount := amtOpt.getD (1 / 100), price := m.price,
                       status := "filled", executed := true, user_id := 7,
                       bot_id := some 1 }],
                  next_trade_id := exampleDb.next_trade_id + 1 }
              ∧ (run_bot_task exampleDb 1).portfolios = exampleDb.portfolios)
            ∧ (findMarket exampleDb (symOpt.getD "BTC/USD") = none →
               run_bot_task exampleDb 1 = setBotStatus exampleDb 1 "running"))) :=
  ⟨by decide, by decide,
   (c2_bot_start exampleDb 7 1
     { id := 1, name := "mybot", strategy := "dca",
       config := .parsed (some "BTC/USD") (some "buy") (some 2),
       status := "stopped", owner_id := 7 } rfl rfl).2⟩

end Sweep

